import Mathlib

/-!
# Verification of the ai-xmpp-bot message-handling core

Shallow embedding, in Lean 4, of the message-handling and session-concurrency
pipeline of the `ai-xmpp-bot` repository (`src/bot.py`, `src/mixins.py`,
`src/services/llm_service.py`), together with theorems settling the spec
claims about it.

Conventions of the embedding:
* Python strings are Lean `String`s; the few Python string primitives the
  code uses (`str.strip`, `str.upper`, `str.split(sep, maxsplit)`, `in`)
  are modelled explicitly below.
* `datetime` values are modelled as integer second counts where only
  differences matter, and as opaque formatted strings where only the
  formatted text is stored.
* `await`-able calls into external collaborators (the LLM backend, the
  OMEMO plugin, the XMPP transport) are modelled as oracle parameters; a
  call that may raise is an `Except String` value.
* Coroutine interleaving (asyncio) is modelled as a labelled transition
  system whose atomic steps are the maximal await-free segments of the
  Python code.
-/

namespace XmppBot

/-! ## Python string primitives -/

/-- Whitespace stripped by `str.strip()` (the ASCII whitespace characters;
the code never feeds other Unicode space characters to `strip`). -/
def isPySpace (c : Char) : Bool :=
  c = ' ' ∨ c = '\t' ∨ c = '\n' ∨ c = '\r' ∨ c = '\x0b' ∨ c = '\x0c'

/-- Model: `str.upper()` on the character range the program uses: ASCII letters and
the Cyrillic letters а-я/ё (the affirmative token "ДА" is Cyrillic). -/
def pyUpperChar (c : Char) : Char :=
  if 'a' ≤ c ∧ c ≤ 'z' then Char.ofNat (c.toNat - 32)
  else if 'а' ≤ c ∧ c ≤ 'я' then Char.ofNat (c.toNat - 32)
  else if c = 'ё' then 'Ё'
  else c

def stripLeft : List Char → List Char
  | [] => []
  | c :: cs => if isPySpace c then stripLeft cs else c :: cs

/-- Model: `str.strip()` with no argument: drop whitespace from both ends. -/
def pyStripList (l : List Char) : List Char :=
  (stripLeft (stripLeft l.reverse).reverse)

def pyStrip (s : String) : String := String.mk (pyStripList s.toList)

/-- Model: `str.upper()`. -/
def pyUpper (s : String) : String := String.mk (s.toList.map pyUpperChar)

/-- Is `n` a prefix of `h` (over character lists)? -/
def startsList : List Char → List Char → Bool
  | [], _ => true
  | _ :: _, [] => false
  | a :: as, b :: bs => a = b && startsList as bs

/-- Does `n` occur as a contiguous substring of `h`?  Models Python's
`n in h` for strings. -/
def containsSub (n : List Char) : List Char → Bool
  | [] => n.isEmpty
  | b :: bs => startsList n (b :: bs) || containsSub n bs

/-- Python `sub in s` for strings. -/
def pyIn (sub s : String) : Bool := containsSub sub.toList s.toList

/-- Split a character list at the first occurrence of `sep`: returns the
part before it and, when `sep` occurs, the remainder after it. -/
def splitFirst (sep : Char) : List Char → List Char × Option (List Char)
  | [] => ([], none)
  | c :: cs =>
    if c = sep then ([], some cs)
    else
      let r := splitFirst sep cs
      (c :: r.1, r.2)

/-- Python `s.split("|", 2)`: split at the first two occurrences of `'|'`,
giving at most three parts. -/
def pySplitPipe2 (s : String) : List String :=
  match splitFirst '|' s.toList with
  | (a, none) => [String.mk a]
  | (a, some rest) =>
    match splitFirst '|' rest with
    | (b, none) => [String.mk a, String.mk b]
    | (b, some rest2) => [String.mk a, String.mk b, String.mk rest2]

/-! ## History Store (`SmartXMPPBot._add_to_history`, src/bot.py 352-363) -/

/-- A stored chat turn: the dict `{"sender": ..., "text": ..., "time": ...}`
appended by `_add_to_history`. -/
structure ChatTurn where
  sender : String
  text : String
  time : String
deriving Repr, DecidableEq

/-- Model: `self.MAX_HISTORY_LENGTH` (src/bot.py line 39). -/
def MAX_HISTORY_LENGTH : Nat := 10

/-- The entry built by `_add_to_history`: the stored text is
`body.replace(self.nick, "")` (every literal occurrence of the bot's nick
removed), the time a formatted timestamp string. -/
def mkHistoryEntry (nick sender body time : String) : ChatTurn :=
  { sender := sender, text := body.replace nick "", time := time }

/-- Model: `_add_to_history`'s mutation of `self.message_history`: append the new
entry, then `pop(0)` once when the length exceeds `MAX_HISTORY_LENGTH`. -/
def addToHistory (hist : List ChatTurn) (e : ChatTurn) : List ChatTurn :=
  let h := hist ++ [e]
  if MAX_HISTORY_LENGTH < h.length then h.drop 1 else h

/-! ## Reconnection Supervisor (`handle_disconnect`, src/bot.py 81-94;
`initialize`, src/bot.py 72-79) -/

/-- Model: `self.MAX_RECONNECT_ATTEMPTS` (src/bot.py line 40). -/
def MAX_RECONNECT_ATTEMPTS : Nat := 10

/-- Model: `handle_disconnect` acting on `self.reconnect_attempts`: returns the new
counter value and, when a retry happens, `some waitTime` — the code then
sleeps `waitTime` seconds and calls `self.reconnect()`.  When the counter
has reached the maximum it only logs: no sleep, no reconnection request. -/
def handle_disconnect (attempts : Nat) : Nat × Option Nat :=
  if attempts < MAX_RECONNECT_ATTEMPTS then
    let attempts' := attempts + 1
    let wait_time := min (2 ^ attempts') 60
    (attempts', some wait_time)
  else
    (attempts, none)

/-- Iterate `handle_disconnect` `n` times from counter value `a`, collecting
the wait times of the retries that occur. -/
def disconnectRun : Nat → Nat → Nat × List Nat
  | a, 0 => (a, [])
  | a, n + 1 =>
    let r := handle_disconnect a
    let rest := disconnectRun r.1 n
    (rest.1, r.2.toList ++ rest.2)

/-! ## Typing Simulator inter-word delay (`_typing_task`, src/mixins.py
61-81).  The Python computation is over floats; it is embedded over ℚ with
the literals' exact decimal values.  The claim proved about it (clamping
into [0.25, 2.0]) depends only on the final `max`/`min` clamp, which is
exact in both arithmetics. -/

/-- The delay computed for one word of the reveal loop:
`base_delay = speed * len(word) * 0.5`, times a jitter drawn from
`{0.85, 1.0, 1.15}`, times `1.7` when the word ends in `. ! ?`, times
`1.3` when it ends in `, ; :`, then `max(0.25, min(delay, 2.0))`. -/
def typingDelay (speed : ℚ) (word : List Char) (jitter : ℚ) : ℚ :=
  let base_delay : ℚ := speed * word.length * (1 / 2)
  let delay : ℚ := base_delay * jitter
  let punctuation_multiplier : ℚ :=
    if [('.' : Char), '!', '?'].any (fun p => word.getLast? = some p) then 17 / 10
    else if [(',' : Char), ';', ':'].any (fun p => word.getLast? = some p) then 13 / 10
    else 1
  let delay' := delay * punctuation_multiplier
  max (1 / 4) (min delay' 2)

/-- The default `speed` argument of `send_message_with_typing`
(src/mixins.py line 21): `0.02`. -/
def TYPING_SPEED : ℚ := 1 / 50

/-! ## Relevance-decision parsing (`LLMService.analyze_conversation`,
src/services/llm_service.py 209-236) -/

/-- The affirmative token set `["YES", "ДА", "Y"]` (line 224; the same list
is scanned for on line 230). -/
def AFFIRMATIVE : List String := ["YES", "ДА", "Y"]

/-- Lines 220-233 of `analyze_conversation`: parse the backend's raw
decision string into a `(decision, reason)` pair.  The `try`/`except`
around these lines in the source can never fire — every operation inside
it is a total string operation — so the parse is a total function. -/
def parseDecision (decision_result : String) : Bool × String :=
  if pyIn "|" decision_result then
    let parts := pySplitPipe2 decision_result
    let decision := pyUpper (pyStrip (parts.headD ""))
    let reason :=
      match parts[1]? with
      | some p => pyStrip p
      | none => "Нет причины"
    if decision ∈ AFFIRMATIVE then (true, reason) else (false, reason)
  else
    let result_upper := pyUpper decision_result
    if AFFIRMATIVE.any (fun word => pyIn word result_upper) then
      (true, "Автоматический анализ (YES найдено в тексте)")
    else
      (false, "Автоматический анализ (NO по умолчанию)")

/-- The busy message returned (and logged) when `is_generating` is already
set (lines 212-213). -/
def BUSY_MESSAGE : String := "Пропускаю запрос: уже идет генерация ответа"

/-- Model: `analyze_conversation` as a sequential function: `g` is the current
value of `self.is_generating`, `backend` the outcome of
`await self.decision_chain.ainvoke(...)` (`Except.error` = the awaited
call raised).  Result: the new value of `is_generating`, and either the
returned `(decision, reason)` pair (`decision = none` models Python's
`None` on the busy path) or the propagated exception.

Faithful detail: the source resets `is_generating` on line 218, *after*
the `await` on line 217 and outside any `try`/`finally`; a backend raise
therefore propagates out of the coroutine and leaves `is_generating`
permanently `True`. -/
def analyze_conversation (g : Bool) (backend : Except String String) :
    Bool × Except String (Option Bool × String) :=
  if g then
    (g, Except.ok (none, BUSY_MESSAGE))
  else
    match backend with
    | Except.error e => (true, Except.error e)
    | Except.ok decision_result =>
      let r := parseDecision decision_result
      (false, Except.ok (some r.1, r.2))

/-! ## The single-flight gate (`LLMService.is_generating` +
`generation_lock`) as a labelled transition system.

src/services/llm_service.py: `analyze_conversation` (209-236) and
`generate_response` (274-292) both guard their backend call with the
shared boolean `self.is_generating`; `generate_response` additionally
wraps its call in `async with self.generation_lock`.

The system runs on a single cooperative asyncio loop, so a maximal
await-free code segment executes atomically.  The segments, and hence the
transitions below, are:

* `analyzeBusy` / `generateBusy`: lines 211-213 / 277-279 when the flag
  is set — the call returns the busy result at once, touching nothing.
* `analyzeStart`: lines 211-217 when the flag is clear — check the flag,
  set it, and issue the backend call, with no `await` in between (only
  line 217's `await` suspends).
* `generateStart`: lines 277-286 when the flag is clear — check the flag,
  acquire the lock, set the flag, and issue the backend call.  Acquiring a
  *free* asyncio lock does not suspend, so this too is one atomic segment;
  the invariant below shows the lock is never held when the flag is clear,
  so the blocking-acquire path is unreachable.
* `analyzeFinishOk`: line 218 plus the parse — the backend call returned;
  the flag is cleared.
* `analyzeFinishRaise`: the backend call on line 217 raised — the
  exception propagates and the flag is *not* cleared (line 218 skipped).
* `generateFinish`: the `finally` on lines 290-292 — the flag is cleared
  and the lock released whether the call returned or raised. -/

structure GateConfig where
  is_generating : Bool
  /-- Is `generation_lock` held? -/
  lock : Bool
  /-- Decision-chain backend calls currently in flight. -/
  analyzing : Nat
  /-- Response-chain backend calls currently in flight. -/
  generating : Nat
deriving Repr, DecidableEq

inductive GateLabel where
  | analyzeCallsBackend
  | analyzeReturnsBusy
  | analyzeDone
  | analyzeRaised
  | generateCallsBackend
  | generateReturnsBusy
  | generateDone
deriving Repr, DecidableEq

inductive GateStep : GateConfig → GateLabel → GateConfig → Prop where
  | analyzeStart (c : GateConfig) (h : c.is_generating = false) :
      GateStep c .analyzeCallsBackend
        { c with is_generating := true, analyzing := c.analyzing + 1 }
  | analyzeBusy (c : GateConfig) (h : c.is_generating = true) :
      GateStep c .analyzeReturnsBusy c
  | analyzeFinishOk (c : GateConfig) (h : 1 ≤ c.analyzing) :
      GateStep c .analyzeDone
        { c with is_generating := false, analyzing := c.analyzing - 1 }
  | analyzeFinishRaise (c : GateConfig) (h : 1 ≤ c.analyzing) :
      GateStep c .analyzeRaised
        { c with analyzing := c.analyzing - 1 }
  | generateStart (c : GateConfig) (hg : c.is_generating = false)
      (hl : c.lock = false) :
      GateStep c .generateCallsBackend
        { c with is_generating := true, lock := true,
                 generating := c.generating + 1 }
  | generateBusy (c : GateConfig) (h : c.is_generating = true) :
      GateStep c .generateReturnsBusy c
  | generateFinish (c : GateConfig) (h : 1 ≤ c.generating) :
      GateStep c .generateDone
        { c with is_generating := false, lock := false,
                 generating := c.generating - 1 }

/-- The state after `LLMService.__init__` (lines 32-33): flag clear, lock
free, nothing in flight. -/
def gateInit : GateConfig :=
  { is_generating := false, lock := false, analyzing := 0, generating := 0 }

inductive GateReachable : GateConfig → Prop where
  | init : GateReachable gateInit
  | step {c l c'} : GateReachable c → GateStep c l c' → GateReachable c'

/-! ## Send Orchestrator (`send_msg` src/bot.py 152-194,
`_encrypt_and_send_message` src/bot.py 295-331) -/

/-- The value of the local variable `to` in `_encrypt_and_send_message`:
it starts as a single JID, and for a groupchat send is *reassigned* on
line 313 to the set of individual JIDs returned by
`get_encrypt_for_muc()`.  We keep the set as the (ordered) list of roster
JIDs. -/
inductive Addr where
  | jid (j : String)
  | jidSet (js : List String)
deriving Repr, DecidableEq

/-- One observable wire action of the send path. -/
inductive SendUnit where
  /-- Model: `encrypted_msg.send()` (line 317): one ciphertext unit, built by the
  OMEMO plugin; its stanza id, when the plugin assigned one. -/
  | encryptedUnit (id : Option String)
  /-- A plaintext `msg.send()`: recipient, body, message type, and the
  message-correction reference (`urn:xmpp:message-correct:0` `replace`
  element id) when one was attached. -/
  | plain (mto : Addr) (body : String) (mtype : String)
      (replaceId : Option String)
deriving Repr, DecidableEq

/-- External outcomes `_encrypt_and_send_message` depends on. -/
structure EncryptEnv where
  /-- The JIDs `get_encrypt_for_muc()` would return (roster minus self). -/
  roster : List String
  /-- Outcome of `await omemo_plugin.encrypt_message(...)`: on success the
  stanza ids of the per-device encrypted messages (in iteration order),
  `Except.error` when the call raises. -/
  encryptOutcome : Except String (List (Option String))
  /-- Model: `int(asyncio.get_event_loop().time() * 1000)`, used to synthesize a
  fallback id (line 321). -/
  loopTimeMs : Nat
  /-- The stanza id `fallback_msg.get("id")` of a freshly made message
  (assigned by the transport layer, possibly absent). -/
  fallbackMsgId : Option String
deriving Repr

/-- Model: `_encrypt_and_send_message` (src/bot.py 295-331): returns the message
id handed back to the caller and the list of wire sends performed.

The `try` block builds the reply, rebinds `to` for groupchat sends, and
encrypts-and-sends; on *any* exception in it (the modelled failure is the
`encrypt_message` call raising) the `except` block sends one plaintext
message with the same body and replace id — addressed to the *current*
value of `to`, i.e. the rebound roster set for a groupchat send. -/
def encrypt_and_send_message (env : EncryptEnv) (message : String)
    (mto : Addr) (message_type : String) (replace_msg_id : Option String) :
    Option String × List SendUnit :=
  let to' := if message_type = "groupchat" then Addr.jidSet env.roster else mto
  match env.encryptOutcome with
  | Except.ok unitIds =>
    let sends := unitIds.map SendUnit.encryptedUnit
    let firstId := (unitIds.filterMap id).head?
    let msg_id :=
      match firstId with
      | some i => some i
      | none => some ("msg_" ++ toString env.loopTimeMs)
    (msg_id, sends)
  | Except.error _ =>
    (env.fallbackMsgId,
     [SendUnit.plain to' message message_type replace_msg_id])

/-- Model: `send_msg` (src/bot.py 152-194) restricted to the encrypted branch
(`is_encrypt=True`, the default) without mention injection: resolves the
default recipient to the room and delegates to
`_encrypt_and_send_message`. -/
def send_msg_encrypted (env : EncryptEnv) (room : String) (message : String)
    (mto : Option String) (message_type : String)
    (replace_msg_id : Option String) : Option String × List SendUnit :=
  let target := Addr.jid (mto.getD room)
  encrypt_and_send_message env message target message_type replace_msg_id

/-! ## Typing Simulator (`TypingEffectMixin`, src/mixins.py) as a labelled
transition system, for one recipient key (`session_id = str(to_jid)`; every
access in the source indexes `active_sessions` / `message_ids` by this one
key, so distinct keys never interact).

Atomic segments (single cooperative loop; `send_msg` with
`is_encrypt=False` contains no suspension point, so the only true
suspension inside `_typing_task` is the `asyncio.sleep` on line 81):

* `send_message_with_typing` (21-27): cancel the task stored under the
  key, if any; create the new task; store it under the key.
* A task's first run (53-81 up to the first sleep): send the cursor; on
  failure return (running the `finally` cleanup); otherwise run loop
  iteration 1 — membership check, word edit — and suspend; with an empty
  word list the loop is skipped and the final edit / cleanup run at once.
* A resume from sleep (61-84): next iteration's membership check and word
  edit, or — when the words are exhausted or the check fails — the final
  full-text edit (83-84, only under the membership check) and the
  `finally` cleanup (89).
* A cancelled task's resume: `asyncio.sleep` raises `CancelledError`,
  which `except Exception` (86) does not catch, so the task runs only the
  `finally` cleanup and finishes — no edit of any kind.
* A task cancelled before its first run never enters the coroutine body
  (asyncio throws into the un-started coroutine), so not even the
  `finally` runs.
* `stop_typing` (111-118): cancel the stored task and clean the key up
  synchronously.

`_cleanup_session` (104-109) deletes whatever entry currently sits under
the key — faithful to `if session_id in self.active_sessions: del ...`,
even when that entry is a *newer* task's. -/

inductive TPhase where
  /-- Created by `asyncio.create_task`, body not yet entered; word count
  of the text to reveal. -/
  | ready (words : Nat)
  /-- Suspended in `asyncio.sleep` inside the reveal loop; words still to
  reveal after this suspension. -/
  | sleeping (todo : Nat)
  | finished
deriving Repr, DecidableEq

structure TaskRec where
  phase : TPhase
  /-- Has `Task.cancel()` been called on this task? -/
  cancelled : Bool
deriving Repr, DecidableEq

structure TypingConfig where
  /-- Fresh task identifier. -/
  nextId : Nat
  /-- All tasks created so far, by identifier. -/
  task : Nat → Option TaskRec
  /-- Model: `active_sessions[session_id]`, holding a task identifier. -/
  slot : Option Nat

/-- Mark the task stored at `o` cancelled (`self.active_sessions[...]
.cancel()`). -/
def cancelTask (f : Nat → Option TaskRec) (o : Nat) : Nat → Option TaskRec :=
  fun k => if k = o then (f o).map (fun r => { r with cancelled := true }) else f k

/-- Set task `i`'s phase. -/
def setPhase (f : Nat → Option TaskRec) (i : Nat) (p : TPhase) :
    Nat → Option TaskRec :=
  fun k => if k = i then (f i).map (fun r => { r with phase := p }) else f k

inductive TLabel where
  /-- Model: `send_message_with_typing` called with an `n`-word text; the fresh
  task's identifier. -/
  | startSession (n : Nat) (newTask : Nat)
  /-- Model: `stop_typing` called. -/
  | stopTyping
  /-- Task `i` entered its body and `_send_cursor` returned `None`. -/
  | cursorFailed (i : Nat)
  /-- Task `i` sent the cursor but found the key absent and broke out
  before any reveal. -/
  | cursorOnly (i : Nat)
  /-- Task `i` performed one in-progress edit (partial text + cursor). -/
  | wordEdit (i : Nat)
  /-- Task `i` performed the final full-text edit (the `Finalized` edit,
  lines 83-84). -/
  | finalEdit (i : Nat)
  /-- Cancelled task `i` resumed: `CancelledError`, `finally` cleanup. -/
  | cancelCleanup (i : Nat)
  /-- Task `i` was cancelled before ever running: the coroutine body never
  starts. -/
  | cancelBeforeRun (i : Nat)
  /-- Task `i` resumed, found the key absent, broke out, skipped the final
  edit. -/
  | breakNoFinal (i : Nat)
deriving Repr, DecidableEq

inductive TypingStep : TypingConfig → TLabel → TypingConfig → Prop where
  /-- Model: `send_message_with_typing`, key already present: cancel the stored
  task, create the new one, overwrite the slot. -/
  | startOver (c : TypingConfig) (n o : Nat) (hs : c.slot = some o) :
      TypingStep c (.startSession n c.nextId)
        { nextId := c.nextId + 1,
          task := fun k =>
            if k = c.nextId then some { phase := .ready n, cancelled := false }
            else cancelTask c.task o k,
          slot := some c.nextId }
  /-- Model: `send_message_with_typing`, key absent: create and store the task. -/
  | startFresh (c : TypingConfig) (n : Nat) (hs : c.slot = none) :
      TypingStep c (.startSession n c.nextId)
        { nextId := c.nextId + 1,
          task := fun k =>
            if k = c.nextId then some { phase := .ready n, cancelled := false }
            else c.task k,
          slot := some c.nextId }
  /-- Model: `stop_typing` with a stored task: cancel it and clean up at once. -/
  | stopSome (c : TypingConfig) (o : Nat) (hs : c.slot = some o) :
      TypingStep c .stopTyping
        { c with task := cancelTask c.task o, slot := none }
  /-- Model: `stop_typing` with no stored task: returns `False`, changes
  nothing. -/
  | stopNone (c : TypingConfig) (hs : c.slot = none) :
      TypingStep c .stopTyping c
  /-- A task cancelled before its first run: the body never starts, no
  cleanup. -/
  | cancelledBeforeRun (c : TypingConfig) (i n : Nat)
      (ht : c.task i = some { phase := .ready n, cancelled := true }) :
      TypingStep c (.cancelBeforeRun i)
        { c with task := setPhase c.task i .finished }
  /-- First run, `_send_cursor` fails: `return`, then `finally` cleanup
  deletes whatever the key holds. -/
  | firstRunCursorFail (c : TypingConfig) (i n : Nat)
      (ht : c.task i = some { phase := .ready n, cancelled := false }) :
      TypingStep c (.cursorFailed i)
        { c with task := setPhase c.task i .finished, slot := none }
  /-- First run, cursor sent, but the key is no longer in
  `active_sessions`: break before any reveal; the final-edit check fails
  for the same reason; cleanup is a no-op. -/
  | firstRunKeyGone (c : TypingConfig) (i n : Nat)
      (ht : c.task i = some { phase := .ready n, cancelled := false })
      (hs : c.slot = none) :
      TypingStep c (.cursorOnly i)
        { c with task := setPhase c.task i .finished }
  /-- First run, cursor sent, empty word list: the loop is skipped; the
  key is present, so the final edit fires, then cleanup. -/
  | firstRunEmptyText (c : TypingConfig) (i j : Nat)
      (ht : c.task i = some { phase := .ready 0, cancelled := false })
      (hs : c.slot = some j) :
      TypingStep c (.finalEdit i)
        { c with task := setPhase c.task i .finished, slot := none }
  /-- First run, cursor sent, key present, at least one word: reveal the
  first word and suspend in `asyncio.sleep`. -/
  | firstRunWord (c : TypingConfig) (i n j : Nat)
      (ht : c.task i = some { phase := .ready (n + 1), cancelled := false })
      (hs : c.slot = some j) :
      TypingStep c (.wordEdit i)
        { c with task := setPhase c.task i (.sleeping n) }
  /-- Resume of a cancelled task: `CancelledError` from the sleep; only
  the `finally` cleanup runs, deleting whatever the key holds. -/
  | resumeCancelled (c : TypingConfig) (i k : Nat)
      (ht : c.task i = some { phase := .sleeping k, cancelled := true }) :
      TypingStep c (.cancelCleanup i)
        { c with task := setPhase c.task i .finished, slot := none }
  /-- Resume, key gone: break; final-edit check fails; cleanup no-op. -/
  | resumeKeyGone (c : TypingConfig) (i k : Nat)
      (ht : c.task i = some { phase := .sleeping k, cancelled := false })
      (hs : c.slot = none) :
      TypingStep c (.breakNoFinal i)
        { c with task := setPhase c.task i .finished }
  /-- Resume, key present, words exhausted: final full-text edit, then
  cleanup. -/
  | resumeFinal (c : TypingConfig) (i j : Nat)
      (ht : c.task i = some { phase := .sleeping 0, cancelled := false })
      (hs : c.slot = some j) :
      TypingStep c (.finalEdit i)
        { c with task := setPhase c.task i .finished, slot := none }
  /-- Resume, key present, words remain: reveal the next word and suspend
  again. -/
  | resumeWord (c : TypingConfig) (i k j : Nat)
      (ht : c.task i = some { phase := .sleeping (k + 1), cancelled := false })
      (hs : c.slot = some j) :
      TypingStep c (.wordEdit i)
        { c with task := setPhase c.task i (.sleeping k) }

/-- State of the mixin after `__init__` (src/mixins.py 16-19): empty
session map, no tasks. -/
def typingInit : TypingConfig :=
  { nextId := 0, task := fun _ => none, slot := none }

inductive TypingReachable : TypingConfig → Prop where
  | init : TypingReachable typingInit
  | step {c l c'} : TypingReachable c → TypingStep c l c' → TypingReachable c'

/-! ## The message handler (`muc_message`, src/bot.py 203-293) and the
remaining `LLMService` stages, as sequential functions.

The handler runs as one coroutine; its own backend calls are oracle
parameters (`MucEnv`), calls that can raise are `Except` values.  Sends
are recorded as effects; the typing-effect interaction, whose concurrent
behaviour is the `TypingStep` system above, appears here only as the
`sendWithTyping` effect plus the session-map slot tracked in
`BotState.typingSlot` (which `stop_typing` clears). -/

/-- The mutable attributes of `SmartXMPPBot` (src/bot.py 44-48) together
with `LLMService.is_generating` (src/services/llm_service.py 32), as far
as the handler touches them.  `typingSlot` is
`active_sessions[str(self.room)]`. -/
structure BotState where
  reconnect_attempts : Nat
  message_history : List ChatTurn
  last_response_time : Int
  is_generating : Bool
  typingSlot : Option Nat
deriving Repr, DecidableEq

/-- Externally visible actions of the handler / initializer. -/
inductive BotEffect where
  | getRoster
  | sendPresence
  | setAvatar (path : String)
  | sendAdmin (text : String)
  /-- Model: `send_debug_message`'s room message. -/
  | debugMsg (text : String)
  /-- Model: `send_debug_message`'s admin copy (`is_reply_admin=True`). -/
  | debugAdmin (text : String)
  | chatState (state : String)
  /-- Model: `send_message_with_typing(text=response, to_jid=self.room)`. -/
  | sendWithTyping (text : String)
  /-- Model: `send_msg(message=response)` (typing effect disabled). -/
  | sendPlainResponse (text : String)
  /-- The handler re-raised this exception (`raise e`, line 293). -/
  | raised (e : String)
deriving Repr, DecidableEq

/-- Model: `initialize` (src/bot.py 72-79), the `session_start` handler: fetches
the roster, sends presence, publishes the avatar and notifies the admin.
It assigns none of the bot's mutable attributes — in particular it never
touches `reconnect_attempts`. -/
def onSessionStart (s : BotState) : BotState × List BotEffect :=
  (s, [BotEffect.getRoster, BotEffect.sendPresence,
       BotEffect.setAvatar "./static/avatar.jpg",
       BotEffect.sendAdmin "🤖 AI-Бот запущен и готов к работе!"])

/-- Model: `_too_soon_to_respond` (src/bot.py 365-368). -/
def too_soon_to_respond (minInterval now last : Int) : Bool :=
  now - last < minInterval

/-- Model: `self.DEFAULT_CONTEXT` (src/bot.py line 42). -/
def DEFAULT_CONTEXT : String := "Контекста нет"

/-- src/bot.py line 232. -/
def TOO_SOON_MESSAGE : String := "Слишком рано после предыдущего ответа, пропускаю"

/-- The f-string prefix of `send_debug_message` (src/bot.py 199, 201). -/
def DEBUG_PREFIX : String := "❗️❗❗ DEBUG ❗❗❗ \n\n "

/-- Model: `send_debug_message` (src/bot.py 196-201): emits the room debug
message, and an admin copy when requested, only when `IS_DEBUG` is set. -/
def send_debug_message (isDebug : Bool) (message : String)
    (is_reply_admin : Bool) : List BotEffect :=
  if isDebug then
    BotEffect.debugMsg (DEBUG_PREFIX ++ message) ::
      (if is_reply_admin then [BotEffect.debugAdmin (DEBUG_PREFIX ++ message)]
       else [])
  else []

/-- The parsed output of the code-detector chain: the `is_programming`
field of the JSON dict is the only one the handler reads (the
`confidence` field is ignored, src/bot.py 266). -/
structure CodeVerdict where
  is_programming : Bool
deriving Repr, DecidableEq

/-- Model: `analyze_context` (src/services/llm_service.py 238-250): skipped with
`None` when `is_generating` is set — reading the flag without taking the
lock; otherwise the backend's string (a raise propagates). -/
def analyze_context (g : Bool) (backend : Except String String) :
    Except String (Option String) :=
  if g then Except.ok none else backend.map some

/-- Model: `detector_code` (src/services/llm_service.py 252-264): same read-only
flag check; the backend outcome is the parsed JSON verdict (or `none` for
a null parse). -/
def detector_code (g : Bool) (backend : Except String (Option CodeVerdict)) :
    Except String (Option CodeVerdict) :=
  if g then Except.ok none else backend

/-- Model: `generate_response` (src/services/llm_service.py 274-292): busy check,
then `async with generation_lock` / `is_generating = True` around the
backend call; the `finally` clears the flag on success and on raise. -/
def generate_response (g : Bool) (backend : Except String String) :
    Bool × Except String (Option String) :=
  if g then
    (g, Except.ok none)
  else
    match backend with
    | Except.error e => (false, Except.error e)
    | Except.ok r => (false, Except.ok (some r))

/-- Python truthiness of the `should_respond` value (`bool | None`). -/
def optionTruthy (o : Option Bool) : Bool := o.getD false

/-- Python truthiness of `code and code.get("is_programming")`. -/
def codeTruthy (code : Option CodeVerdict) : Bool :=
  match code with
  | some c => c.is_programming
  | none => false

/-- What `f"Детектор кода:\n\n{code}"` interpolates (the repr of the parsed
dict; only the tracked field is rendered). -/
def codeRepr (code : Option CodeVerdict) : String :=
  match code with
  | some c => if c.is_programming then "\x7b'is_programming': True\x7d"
              else "\x7b'is_programming': False\x7d"
  | none => "None"

/-- One inbound group message as the handler reads it: stanza type, MUC
nickname of the sender, plaintext body, and whether the OMEMO plugin
reports it encrypted. -/
structure MucMsg where
  mtype : String
  mucnick : String
  body : String
  encrypted : Bool
deriving Repr, DecidableEq

/-- The external outcomes one `muc_message` invocation depends on. -/
structure MucEnv where
  /-- Model: `datetime.now().strftime(...)` at the inbound history append. -/
  nowStr : String
  /-- Model: `datetime.now()` inside `_too_soon_to_respond`, in seconds. -/
  now : Int
  /-- Model: `datetime.now().strftime(...)` at the reply history append. -/
  nowStr2 : String
  /-- Model: `datetime.now()` assigned to `last_response_time` (line 280). -/
  nowAfterSend : Int
  /-- Model: `await omemo_plugin.decrypt_message(msg)`, reduced to the body text
  (`""` when the decrypted message has no body); `Except.error` = raise. -/
  decryptOutcome : Except String String
  /-- Model: `await check_ollama_health()` (never raises, src/utils.py). -/
  ollamaHealthy : Bool
  /-- Outcome of the decision chain `ainvoke`. -/
  decisionBackend : Except String String
  /-- Outcome of the context chain `ainvoke`. -/
  contextBackend : Except String String
  /-- Outcome of the code-detector chain `ainvoke` (parsed). -/
  codeBackend : Except String (Option CodeVerdict)
  /-- Outcome of the code-response chain `ainvoke`. -/
  codeResponseBackend : Except String String
  /-- Outcome of the response chain `ainvoke`. -/
  responseBackend : Except String String
deriving Repr

/-- Model: `stop_typing(self.room)` effect on the tracked state: the stored
session, if any, is cancelled and its map entry removed. -/
def stopTypingState (s : BotState) : BotState := { s with typingSlot := none }

/-- Body acquisition, src/bot.py 212-227: decrypt when encrypted (a raise
propagates to the outer handler), else take the raw body, dropping the
OMEMO capability notice; `ok none` = silent return. -/
def bodyStep (msg : MucMsg) (env : MucEnv) : Except String (Option String) :=
  if msg.encrypted then
    env.decryptOutcome.map some
  else
    if pyIn "OMEMO" msg.body && pyIn "doesn't support" msg.body then
      Except.ok none
    else
      Except.ok (some msg.body)

/-- The inner `except Exception` (src/bot.py 283-287): chat state back to
active, stop the typing session, notify the admin with the truncated
error — no re-raise. -/
def innerExceptPath (s : BotState) (effs : List BotEffect) (e : String) :
    BotState × List BotEffect :=
  (stopTypingState s,
   effs ++ [BotEffect.chatState "active",
            BotEffect.sendAdmin ("Ошибка: " ++ e.take 50)])

/-- The outer `except Exception` (src/bot.py 289-293): chat state back to
active, stop the typing session, re-raise. -/
def outerExceptPath (s : BotState) (effs : List BotEffect) (e : String) :
    BotState × List BotEffect :=
  (stopTypingState s,
   effs ++ [BotEffect.chatState "active", BotEffect.raised e])

/-- src/bot.py 272-282: the `if response:` tail — store the bot's own
reply in history (nick-stripped like any other entry), flip chat state,
send with or without the typing effect, and only then update
`last_response_time`. -/
def finishResponse (nick : String) (enableTyping : Bool) (s : BotState)
    (env : MucEnv) (effs : List BotEffect) (response : Option String) :
    BotState × List BotEffect :=
  match response with
  | some r =>
    if r = "" then (s, effs)
    else
      let s' := { s with
        message_history :=
          addToHistory s.message_history (mkHistoryEntry nick nick r env.nowStr2) }
      let sendEff :=
        if enableTyping then BotEffect.sendWithTyping r
        else BotEffect.sendPlainResponse r
      ({ s' with last_response_time := env.nowAfterSend },
       effs ++ [BotEffect.chatState "active", sendEff])
  | none => (s, effs)

/-- The inner `try` (src/bot.py 252-287): context, code detection, then
one of the two generators, then the send tail; any raise lands in
`innerExceptPath`. -/
def respondPhase (nick : String) (isDebug enableTyping : Bool)
    (s : BotState) (env : MucEnv) (effs0 : List BotEffect) :
    BotState × List BotEffect :=
  let effs1 := effs0 ++ [BotEffect.chatState "composing"]
  match analyze_context s.is_generating env.contextBackend with
  | Except.error e => innerExceptPath s effs1 e
  | Except.ok ctx0 =>
    let context :=
      match ctx0 with
      | none => DEFAULT_CONTEXT
      | some c => if c = "" then DEFAULT_CONTEXT else c
    let effs2 := effs1 ++
      send_debug_message isDebug ("Контекст беседы:\n\n" ++ context) false
    match detector_code s.is_generating env.codeBackend with
    | Except.error e => innerExceptPath s effs2 e
    | Except.ok code =>
      let effs3 := effs2 ++
        send_debug_message isDebug ("Детектор кода:\n\n" ++ codeRepr code) true
      if codeTruthy code then
        match env.codeResponseBackend with
        | Except.error e => innerExceptPath s effs3 e
        | Except.ok r => finishResponse nick enableTyping s env effs3 (some r)
      else
        match generate_response s.is_generating env.responseBackend with
        | (g', Except.error e) =>
          innerExceptPath { s with is_generating := g' } effs3 e
        | (g', Except.ok r) =>
          finishResponse nick enableTyping { s with is_generating := g' }
            env effs3 r

/-- Model: `muc_message` (src/bot.py 203-293), sequentially: the two guard
returns, body acquisition, history append, rate gate, health probe,
relevance decision, then the response phase. -/
def muc_message (nick : String) (isDebug enableTyping : Bool)
    (minInterval : Int) (s : BotState) (msg : MucMsg) (env : MucEnv) :
    BotState × List BotEffect :=
  if ¬ (msg.mtype = "chat" ∨ msg.mtype = "normal" ∨ msg.mtype = "groupchat") then
    (s, [])
  else if msg.mucnick = nick then
    (s, [])
  else
    match bodyStep msg env with
    | Except.error e => outerExceptPath s [] e
    | Except.ok none => (s, [])
    | Except.ok (some body) =>
      if body = "" then (s, [])
      else
        let s1 := { s with
          message_history :=
            addToHistory s.message_history
              (mkHistoryEntry nick msg.mucnick body env.nowStr) }
        if too_soon_to_respond minInterval env.now s1.last_response_time then
          (s1, send_debug_message isDebug TOO_SOON_MESSAGE false)
        else if ¬ env.ollamaHealthy then
          (s1, send_debug_message isDebug "Ollama не подключена" true)
        else
          match analyze_conversation s1.is_generating env.decisionBackend with
          | (g', Except.error e) =>
            outerExceptPath { s1 with is_generating := g' } [] e
          | (g', Except.ok sr) =>
            let s2 := { s1 with is_generating := g' }
            if ¬ optionTruthy sr.1 then
              (s2, send_debug_message isDebug
                ("Пропускаю. Причина:\n\n" ++ sr.2) false)
            else
              respondPhase nick isDebug enableTyping s2 env
                (send_debug_message isDebug ("Причина ответа:\n\n" ++ sr.2) false)

/-! ## Spec-side readings used to compare claims with the code -/

/-- Claim C5's reading: the text before the first `'|'`. -/
def textBeforeFirstPipe (s : String) : String :=
  String.mk (splitFirst '|' s.toList).1

/-- Claim C5's reading: the (raw) text after the first `'|'` — everything
that follows it, further pipes included; `""` when there is no pipe. -/
def textAfterFirstPipe (s : String) : String :=
  match (splitFirst '|' s.toList).2 with
  | none => ""
  | some r => String.mk r

/-- Amended reading: the text between the first and the second `'|'` (the
whole remainder after the first pipe when there is no second). -/
def textBetweenFirstPipes (s : String) : String :=
  match (splitFirst '|' s.toList).2 with
  | none => ""
  | some r => String.mk (splitFirst '|' r).1

/-- Claim C5's reading of the pipe-free branch: the uppercased string
contains some affirmative token as a substring. -/
def containsAffirmative (s : String) : Bool :=
  AFFIRMATIVE.any (fun w => pyIn w s)

/-! ## Invariants and sample configurations -/

/-- Inductive invariant of the single-flight gate: at most one
generation-class backend call is in flight; whenever one is, the busy flag
is set; the lock is held exactly while a response-generation call is in
flight. -/
def GateInv (c : GateConfig) : Prop :=
  c.analyzing + c.generating ≤ 1 ∧
  (1 ≤ c.analyzing + c.generating → c.is_generating = true) ∧
  (c.lock = true ↔ c.generating = 1)

/-- The gate configuration right after an `analyzeStart` from the initial
state: one relevance-decision backend call in flight. -/
def gateBusy : GateConfig :=
  { is_generating := true, lock := false, analyzing := 1, generating := 0 }

/-- Inductive invariant of the typing-session system: task identifiers at
or above `nextId` are unused, and the session map only stores identifiers
of existing tasks. -/
def TypingInv (c : TypingConfig) : Prop :=
  (∀ k, c.nextId ≤ k → c.task k = none) ∧
  (∀ o, c.slot = some o → c.task o ≠ none)

/-- The typing configuration right after one `send_message_with_typing`
call on the fresh mixin: task 0 created for a two-word text and stored in
the session map. -/
def typingC1 : TypingConfig :=
  { nextId := 1,
    task := fun k =>
      if k = 0 then some { phase := TPhase.ready 2, cancelled := false }
      else none,
    slot := some 0 }

/-- A bot state as built by `SmartXMPPBot.__init__` (src/bot.py 44-48). -/
def sampleState : BotState :=
  { reconnect_attempts := 0, message_history := [], last_response_time := 0,
    is_generating := false, typingSlot := none }

/-- A concrete environment for exercising `muc_message`. -/
def sampleEnv : MucEnv :=
  { nowStr := "10-12-2026 12:00:00", now := 100,
    nowStr2 := "10-12-2026 12:00:05", nowAfterSend := 105,
    decryptOutcome := Except.ok "привет", ollamaHealthy := true,
    decisionBackend := Except.ok "YES | Contacted the bot",
    contextBackend :=
      Except.ok "Topic=greeting Type=question Mood=friendly Theme=Привет",
    codeBackend := Except.ok (some { is_programming := false }),
    codeResponseBackend := Except.ok "",
    responseBackend := Except.ok "Привет!" }

/-- A group message whose MUC nickname is the bot's own nick. -/
def sampleSelfMsg : MucMsg :=
  { mtype := "groupchat", mucnick := "AI-бот", body := "Привет!",
    encrypted := false }

/-! # Theorems -/

/-! ## History Store -/

/-- Folding appends over a buffer that respects the capacity always yields
the suffix of the combined turn sequence that fits the capacity. -/
theorem history_fold_suffix :
    ∀ (es acc : List ChatTurn), acc.length ≤ MAX_HISTORY_LENGTH →
      es.foldl addToHistory acc =
        (acc ++ es).drop (acc.length + es.length - MAX_HISTORY_LENGTH)
  | [], acc, h => by
    simp [Nat.sub_eq_zero_of_le h]
  | e :: es, acc, h => by
    rw [List.foldl_cons]
    by_cases hlen : MAX_HISTORY_LENGTH < acc.length + 1
    · have hacc : acc.length = MAX_HISTORY_LENGTH := by omega
      have hstep : addToHistory acc e = (acc ++ [e]).drop 1 := by
        simp only [addToHistory, List.length_append, List.length_cons,
          List.length_nil]
        rw [if_pos (by simpa using hlen)]
      rw [hstep]
      have hlen' : ((acc ++ [e]).drop 1).length ≤ MAX_HISTORY_LENGTH := by
        simp [hacc]
      rw [history_fold_suffix es _ hlen']
      have hlen2 : (List.drop 1 (acc ++ [e])).length = MAX_HISTORY_LENGTH := by
        simp [hacc]
      have e1 : List.drop 1 (acc ++ [e]) ++ es = List.drop 1 (acc ++ [e] ++ es) :=
        (List.drop_append_of_le_length (by simp)).symm
      rw [hlen2, e1, List.drop_drop]
      have e2 : acc ++ [e] ++ es = acc ++ e :: es := by simp
      rw [e2, hacc]
      congr 1
      simp only [List.length_cons]
      omega
    · have hstep : addToHistory acc e = acc ++ [e] := by
        simp only [addToHistory, List.length_append, List.length_cons,
          List.length_nil]
        rw [if_neg (by simpa using hlen)]
      rw [hstep]
      rw [history_fold_suffix es _ (by simp; omega)]
      have hornder : acc ++ [e] ++ es = acc ++ e :: es := by simp
      rw [hornder]
      congr 1
      simp
      omega

/-- C1: for every sequence of appends on the History Buffer (starting from
the empty buffer built by `__init__`), after each append — i.e. for every
such sequence — the buffer holds at most 10 entries, and the retained
entries are exactly the most recent 10 appended turns in insertion order
(all of them while there are at most 10): eviction always removes index 0
and nothing else. -/
theorem C1_history_bounded_fifo (es : List ChatTurn) :
    (es.foldl addToHistory []).length ≤ MAX_HISTORY_LENGTH ∧
    es.foldl addToHistory [] = es.drop (es.length - MAX_HISTORY_LENGTH) := by
  have h := history_fold_suffix es [] (by simp)
  simp only [List.nil_append, List.length_nil, Nat.zero_add] at h
  refine ⟨?_, h⟩
  rw [h]
  simp
  omega

/-! ## Reconnection Supervisor -/

/-- C4: across a run of ten consecutive disconnect events starting from a
fresh counter, the supervisor waits exactly 2, 4, 8, 16, 32, 60, 60, 60,
60, 60 seconds (`min(2^attempts, 60)` for the incremented counter) before
each reconnection request, and an eleventh disconnect — the counter now at
10 — triggers no wait and no reconnection request. -/
theorem C4_backoff_sequence :
    disconnectRun 0 10 = (10, [2, 4, 8, 16, 32, 60, 60, 60, 60, 60]) ∧
    handle_disconnect 10 = (10, none) := by decide

/-- C3 fails as stated: after a first disconnect-triggered retry the
counter is 1, and handling the successful session-start event
(`initialize`) leaves it at 1 — the handler never resets it to 0. -/
theorem C3_counterexample :
    (handle_disconnect 0).1 = 1 ∧
    (onSessionStart
      { reconnect_attempts := (handle_disconnect 0).1,
        message_history := [], last_response_time := 0,
        is_generating := false,
        typingSlot := none }).1.reconnect_attempts = 1 ∧
    (1 : Nat) ≠ 0 := by decide

/-- C3 (amended): handling a successful session-start event leaves the
reconnect attempt counter unchanged (nothing in the program ever resets it
after construction); the counter is incremented by exactly one on each
disconnect-triggered retry (counter below 10) and always stays in the
range 0..10. -/
theorem C3_amended_no_reset (s : BotState) (a : Nat) :
    (onSessionStart s).1.reconnect_attempts = s.reconnect_attempts ∧
    (a < MAX_RECONNECT_ATTEMPTS → (handle_disconnect a).1 = a + 1) ∧
    (a ≤ MAX_RECONNECT_ATTEMPTS →
      (handle_disconnect a).1 ≤ MAX_RECONNECT_ATTEMPTS) := by
  refine ⟨rfl, fun hlt => ?_, fun hle => ?_⟩
  · simp [handle_disconnect, hlt]
  · by_cases hlt : a < MAX_RECONNECT_ATTEMPTS
    · simp [handle_disconnect, hlt]
      omega
    · simp [handle_disconnect, hlt]
      omega

/-- Witness for the amended C3 at a concrete state and counter value. -/
theorem C3_amended_no_reset_witness :
    (onSessionStart sampleState).1.reconnect_attempts =
        sampleState.reconnect_attempts ∧
    (handle_disconnect 3).1 = 3 + 1 ∧
    (handle_disconnect 3).1 ≤ MAX_RECONNECT_ATTEMPTS :=
  ⟨(C3_amended_no_reset sampleState 3).1,
   (C3_amended_no_reset sampleState 3).2.1 (by decide),
   (C3_amended_no_reset sampleState 3).2.2 (by decide)⟩

/-! ## Typing delay -/

/-- C9: for every word (any length, any trailing character) and every
jitter value in {0.85, 1.0, 1.15}, the computed inter-word delay —
`0.02 * len * 0.5 * jitter`, times 1.7 for `. ! ?` endings and 1.3 for
`, ; :` endings, then clamped — lies within [0.25, 2.0] seconds. -/
theorem C9_delay_clamped (word : List Char) (jitter : ℚ)
    (h : jitter = 17 / 20 ∨ jitter = 1 ∨ jitter = 23 / 20) :
    1 / 4 ≤ typingDelay TYPING_SPEED word jitter ∧
    typingDelay TYPING_SPEED word jitter ≤ 2 := by
  unfold typingDelay
  exact ⟨le_max_left _ _, max_le (by norm_num) (min_le_right _ _)⟩

/-- Witness for C9 at a concrete word and jitter value. -/
theorem C9_delay_clamped_witness :
    ((17 / 20 : ℚ) = 17 / 20 ∨ (17 / 20 : ℚ) = 1 ∨ (17 / 20 : ℚ) = 23 / 20) ∧
    1 / 4 ≤ typingDelay TYPING_SPEED "привет.".toList (17 / 20) ∧
    typingDelay TYPING_SPEED "привет.".toList (17 / 20) ≤ 2 :=
  ⟨Or.inl rfl,
   (C9_delay_clamped "привет.".toList (17 / 20) (Or.inl rfl)).1,
   (C9_delay_clamped "привет.".toList (17 / 20) (Or.inl rfl)).2⟩

/-! ## Relevance-decision parser -/

/-- Helper fact: `splitFirst` finds no separator exactly when the list contains none. -/
theorem splitFirst_snd_none_iff (sep : Char) :
    ∀ l : List Char, (splitFirst sep l).2 = none ↔ containsSub [sep] l = false
  | [] => by simp [splitFirst, containsSub]
  | b :: bs => by
    by_cases hb : b = sep
    · subst hb
      simp [splitFirst, containsSub, startsList]
    · have hs : (sep = b) = False := by
        simp [Ne.symm hb]
      simp [splitFirst, hb, containsSub, startsList, hs,
        splitFirst_snd_none_iff sep bs]

/-- C5 fails as stated: when the response carries two pipes, the reason is
the trimmed text between the first two pipes, not the trimmed text after
the first pipe.  At `"YES | a | b"` the code yields reason `"a"` while the
claim requires `"a | b"`. -/
theorem C5_counterexample :
    parseDecision "YES | a | b" = (true, "a") ∧
    pyStrip (textAfterFirstPipe "YES | a | b") = "a | b" ∧
    ("a" : String) ≠ "a | b" := by decide

/-- C5 (amended): with a pipe present, the decision is positive iff the
uppercased trimmed text before the first pipe is an affirmative token, and
the reason is the trimmed text *between the first and second pipes* (the
whole remainder when there is only one pipe); with no pipe, the decision
is positive iff the uppercased string contains an affirmative token,
negative by default with the automatic reason; `"YES | contacted bot"`
parses to `(true, "contacted bot")`. -/
theorem C5_amended_pipe_reason (s : String) :
    (pyIn "|" s = true →
      ((parseDecision s).1 = true ↔
        pyUpper (pyStrip (textBeforeFirstPipe s)) ∈ AFFIRMATIVE) ∧
      (parseDecision s).2 = pyStrip (textBetweenFirstPipes s)) ∧
    (pyIn "|" s = false →
      ((parseDecision s).1 = true ↔ containsAffirmative (pyUpper s) = true) ∧
      (containsAffirmative (pyUpper s) = false →
        (parseDecision s).2 = "Автоматический анализ (NO по умолчанию)")) ∧
    parseDecision "YES | contacted bot" = (true, "contacted bot") := by
  refine ⟨fun hp => ?_, fun hp => ?_, by decide⟩
  · have hp' : containsSub ['|'] s.toList = true := hp
    rcases hsp : splitFirst '|' s.toList with ⟨a, rest⟩
    cases rest with
    | none =>
      exfalso
      have hnone := (splitFirst_snd_none_iff '|' s.toList).mp (by rw [hsp])
      rw [hp'] at hnone
      cases hnone
    | some r =>
      rcases hsp2 : splitFirst '|' r with ⟨b, rest2⟩
      have hhead : (pySplitPipe2 s).headD "" = String.mk a := by
        simp only [pySplitPipe2, hsp, hsp2]
        cases rest2 <;> rfl
      have hsecond : (pySplitPipe2 s)[1]? = some (String.mk b) := by
        simp only [pySplitPipe2, hsp, hsp2]
        cases rest2 <;> rfl
      have hbefore : textBeforeFirstPipe s = String.mk a := by
        simp only [textBeforeFirstPipe, hsp]
      have hbetween : textBetweenFirstPipes s = String.mk b := by
        simp only [textBetweenFirstPipes, hsp, hsp2]
      have hpd : parseDecision s =
          if pyUpper (pyStrip (String.mk a)) ∈ AFFIRMATIVE
          then ((true : Bool), pyStrip (String.mk b))
          else ((false : Bool), pyStrip (String.mk b)) := by
        unfold parseDecision
        rw [hp]
        simp only [if_true, hhead, hsecond]
      rw [hpd, hbefore, hbetween]
      by_cases hd : pyUpper (pyStrip (String.mk a)) ∈ AFFIRMATIVE <;>
        simp [hd]
  · have hpd : parseDecision s =
        if containsAffirmative (pyUpper s)
        then ((true : Bool), "Автоматический анализ (YES найдено в тексте)")
        else ((false : Bool), "Автоматический анализ (NO по умолчанию)") := by
      unfold parseDecision containsAffirmative
      rw [hp]
      simp only [Bool.false_eq_true, if_false]
    constructor
    · by_cases hc : containsAffirmative (pyUpper s) = true <;>
        simp [hpd, hc]
    · intro hfalse
      simp [hpd, hfalse]

/-- Witness for the amended C5 on a two-pipe input and on a pipe-free
input. -/
theorem C5_amended_pipe_reason_witness :
    ((parseDecision "YES | a | b").2 =
        pyStrip (textBetweenFirstPipes "YES | a | b")) ∧
    ((parseDecision "просто болтаем").1 = true ↔
        containsAffirmative (pyUpper "просто болтаем") = true) :=
  ⟨((C5_amended_pipe_reason "YES | a | b").1 (by decide)).2,
   ((C5_amended_pipe_reason "просто болтаем").2.1 (by decide)).1⟩

/-- C6 fails as stated: when the backend call raises, the exception
propagates out of `analyze_conversation` instead of being turned into a
`(negative, explanation)` pair — and the busy flag is left set. -/
theorem C6_counterexample :
    (analyze_conversation false (Except.error "connection refused")).2 =
      Except.error "connection refused" ∧
    (∀ p : Option Bool × String,
      (analyze_conversation false (Except.error "connection refused")).2 ≠
        Except.ok p) ∧
    (analyze_conversation false (Except.error "connection refused")).1 =
      true := by
  refine ⟨rfl, ?_, rfl⟩
  intro p h
  simp [analyze_conversation] at h

/-- C6 (amended): whenever the backend call itself returns a string — any
string, well-formed or not — `analyze_conversation` returns a
`(decision, reason)` pair and parsing never fails; but when the backend
call raises, the exception propagates (and the `is_generating` flag stays
set). -/
theorem C6_amended_no_raise (g : Bool) (backend : Except String String) :
    (∀ res, backend = Except.ok res →
      ∃ d r, (analyze_conversation g backend).2 = Except.ok (d, r)) ∧
    (∀ e, backend = Except.error e → g = false →
      analyze_conversation g backend = (true, Except.error e)) := by
  constructor
  · intro res hres
    subst hres
    cases g with
    | false =>
      exact ⟨some (parseDecision res).1, (parseDecision res).2, rfl⟩
    | true => exact ⟨none, BUSY_MESSAGE, rfl⟩
  · intro e he hg
    subst he
    subst hg
    rfl

/-- Witness for the amended C6 at a concrete malformed backend string and
a concrete backend exception. -/
theorem C6_amended_no_raise_witness :
    (∃ d r, (analyze_conversation false
        (Except.ok "мусорный ответ ((( без формата")).2 = Except.ok (d, r)) ∧
    analyze_conversation false (Except.error "timeout") =
      (true, Except.error "timeout") :=
  ⟨(C6_amended_no_raise false
      (Except.ok "мусорный ответ ((( без формата")).1 _ rfl,
   (C6_amended_no_raise false (Except.error "timeout")).2 "timeout" rfl rfl⟩

/-! ## Send Orchestrator -/

/-- C7: the fallback of a failed encrypted groupchat send is addressed to
the *rebound* value of `to` — the set of roster JIDs collected for
encryption — and not to the original recipient; body, type and correction
reference are preserved, and an id (not an exception) is returned, but the
"same recipient" part of the claim fails on every groupchat send whose
encryption step raises. -/
theorem C7_fallback_rebound_recipient :
    encrypt_and_send_message
      { roster := ["alice@example.org", "bob@example.org"],
        encryptOutcome := Except.error "OMEMO encryption failed",
        loopTimeMs := 0, fallbackMsgId := some "fb1" }
      "привет" (Addr.jid "room@conference.example.org") "groupchat"
      (some "orig-id") =
      (some "fb1",
       [SendUnit.plain (Addr.jidSet ["alice@example.org", "bob@example.org"])
          "привет" "groupchat" (some "orig-id")]) ∧
    Addr.jidSet ["alice@example.org", "bob@example.org"] ≠
      Addr.jid "room@conference.example.org" := by decide

/-! ## Message-handler guards -/

/-- C10: an inbound group message whose sender nickname is the bot's own
nick, or whose stanza type is not chat/normal/groupchat, makes the handler
return immediately: no decryption, no history append, no rate-gate check,
no pipeline call, no effect of any kind, and the bot state — history, last
response time, typing session, reconnect counter, busy flag — is returned
unchanged. -/
theorem C10_guard_frame (nick : String) (isDebug enableTyping : Bool)
    (minInterval : Int) (s : BotState) (msg : MucMsg) (env : MucEnv)
    (h : msg.mucnick = nick ∨
      ¬ (msg.mtype = "chat" ∨ msg.mtype = "normal" ∨ msg.mtype = "groupchat")) :
    muc_message nick isDebug enableTyping minInterval s msg env = (s, []) := by
  unfold muc_message
  rcases h with h | h
  · by_cases h1 : msg.mtype = "chat" ∨ msg.mtype = "normal" ∨
        msg.mtype = "groupchat"
    · rw [if_neg (not_not_intro h1), if_pos h]
    · rw [if_pos h1]
  · rw [if_pos h]

/-! ## Single-flight gate -/

/-- The gate invariant holds initially. -/
theorem gateInv_init : GateInv gateInit := by
  refine ⟨by simp [gateInit], fun h => by simp [gateInit] at h, ?_⟩
  simp [gateInit]

/-- The gate invariant is preserved by every transition. -/
theorem gateInv_step {c : GateConfig} {l : GateLabel} {c' : GateConfig}
    (hinv : GateInv c) (hs : GateStep c l c') : GateInv c' := by
  obtain ⟨h1, h2, h3⟩ := hinv
  cases hs with
  | analyzeStart hflag =>
    have h0 : c.analyzing + c.generating = 0 := by
      by_contra hne
      have ht := h2 (by omega)
      rw [hflag] at ht
      exact Bool.noConfusion ht
    refine ⟨?_, fun _ => rfl, h3⟩
    show c.analyzing + 1 + c.generating ≤ 1
    omega
  | analyzeBusy hflag => exact ⟨h1, h2, h3⟩
  | analyzeFinishOk hle =>
    refine ⟨?_, ?_, h3⟩
    · show c.analyzing - 1 + c.generating ≤ 1
      omega
    · intro hin
      have hin' : 1 ≤ c.analyzing - 1 + c.generating := hin
      exact absurd hin' (by omega)
  | analyzeFinishRaise hle =>
    refine ⟨?_, ?_, h3⟩
    · show c.analyzing - 1 + c.generating ≤ 1
      omega
    · intro hin
      have hin' : 1 ≤ c.analyzing - 1 + c.generating := hin
      exact absurd hin' (by omega)
  | generateStart hflag hlock =>
    have h0 : c.analyzing + c.generating = 0 := by
      by_contra hne
      have ht := h2 (by omega)
      rw [hflag] at ht
      exact Bool.noConfusion ht
    refine ⟨?_, fun _ => rfl, ?_⟩
    · show c.analyzing + (c.generating + 1) ≤ 1
      omega
    · show true = true ↔ c.generating + 1 = 1
      exact ⟨fun _ => by omega, fun _ => rfl⟩
  | generateBusy hflag => exact ⟨h1, h2, h3⟩
  | generateFinish hle =>
    refine ⟨?_, ?_, ?_⟩
    · show c.analyzing + (c.generating - 1) ≤ 1
      omega
    · intro hin
      have hin' : 1 ≤ c.analyzing + (c.generating - 1) := hin
      exact absurd hin' (by omega)
    · show false = true ↔ c.generating - 1 = 1
      constructor
      · intro hf
        exact absurd hf (by simp)
      · intro h01
        exact absurd h01 (by omega)

/-- Every reachable gate configuration satisfies the invariant. -/
theorem gateInv_reachable {c : GateConfig} (h : GateReachable c) : GateInv c := by
  induction h with
  | init => exact gateInv_init
  | step _ hs ih => exact gateInv_step ih hs

/-- C2: in every reachable configuration of the single-flight gate, at most
one relevance-decision or response-generation backend call is in flight
system-wide; and whenever one is in flight, neither operation can start a
new backend call — the only step available to a new call of either is the
immediate busy return, which changes nothing (so nothing is queued). -/
theorem C2_single_flight_gate (c : GateConfig) (h : GateReachable c) :
    c.analyzing + c.generating ≤ 1 ∧
    (1 ≤ c.analyzing + c.generating →
      (∀ c', ¬ GateStep c GateLabel.analyzeCallsBackend c') ∧
      (∀ c', ¬ GateStep c GateLabel.generateCallsBackend c') ∧
      GateStep c GateLabel.analyzeReturnsBusy c ∧
      GateStep c GateLabel.generateReturnsBusy c) := by
  obtain ⟨h1, h2, h3⟩ := gateInv_reachable h
  refine ⟨h1, fun hin => ⟨?_, ?_, ?_, ?_⟩⟩
  · intro c' hstep
    cases hstep with
    | analyzeStart hflag =>
      rw [h2 hin] at hflag
      exact Bool.noConfusion hflag
  · intro c' hstep
    cases hstep with
    | generateStart hflag hlock =>
      rw [h2 hin] at hflag
      exact Bool.noConfusion hflag
  · exact GateStep.analyzeBusy c (h2 hin)
  · exact GateStep.generateBusy c (h2 hin)

/-- Witness for C2 at the concrete reachable configuration with one
relevance-decision call in flight. -/
theorem C2_single_flight_gate_witness :
    gateBusy.analyzing + gateBusy.generating ≤ 1 ∧
    (1 ≤ gateBusy.analyzing + gateBusy.generating →
      (∀ c', ¬ GateStep gateBusy GateLabel.analyzeCallsBackend c') ∧
      (∀ c', ¬ GateStep gateBusy GateLabel.generateCallsBackend c') ∧
      GateStep gateBusy GateLabel.analyzeReturnsBusy gateBusy ∧
      GateStep gateBusy GateLabel.generateReturnsBusy gateBusy) :=
  C2_single_flight_gate gateBusy
    (GateReachable.step GateReachable.init (GateStep.analyzeStart gateInit rfl))

/-! ## Typing sessions -/

/-- Helper fact: `cancelTask` never turns an existing task into a missing one or back. -/
theorem cancelTask_none_iff (f : Nat → Option TaskRec) (o k : Nat) :
    cancelTask f o k = none ↔ f k = none := by
  unfold cancelTask
  by_cases h : k = o
  · subst h
    simp
  · simp [h]

/-- Helper fact: `setPhase` never turns an existing task into a missing one or back. -/
theorem setPhase_none_iff (f : Nat → Option TaskRec) (i : Nat) (p : TPhase)
    (k : Nat) : setPhase f i p k = none ↔ f k = none := by
  unfold setPhase
  by_cases h : k = i
  · subst h
    simp
  · simp [h]

/-- A cancelled task stays cancelled across `setPhase`. -/
theorem setPhase_pres_cancelled {f : Nat → Option TaskRec} {i j : Nat}
    {p : TPhase} {r : TaskRec} (hr : f i = some r) (hc : r.cancelled = true) :
    ∃ r', setPhase f j p i = some r' ∧ r'.cancelled = true := by
  unfold setPhase
  by_cases hij : i = j
  · subst hij
    rw [hr, if_pos rfl]
    exact ⟨{ r with phase := p }, rfl, hc⟩
  · rw [if_neg hij]
    exact ⟨r, hr, hc⟩

/-- A cancelled task stays cancelled across `cancelTask`. -/
theorem cancelTask_pres_cancelled {f : Nat → Option TaskRec} {i o : Nat}
    {r : TaskRec} (hr : f i = some r) (hc : r.cancelled = true) :
    ∃ r', cancelTask f o i = some r' ∧ r'.cancelled = true := by
  unfold cancelTask
  by_cases hio : i = o
  · subst hio
    rw [hr, if_pos rfl]
    exact ⟨{ r with cancelled := true }, rfl, rfl⟩
  · rw [if_neg hio]
    exact ⟨r, hr, hc⟩

/-- The typing invariant is preserved by every transition. -/
theorem typingInv_step {c : TypingConfig} {l : TLabel} {c' : TypingConfig}
    (hinv : TypingInv c) (hs : TypingStep c l c') : TypingInv c' := by
  obtain ⟨hfresh, hslot⟩ := hinv
  cases hs with
  | startOver n o hs =>
    constructor
    · intro k hk
      have hk' : c.nextId + 1 ≤ k := hk
      show (if k = c.nextId
            then some { phase := TPhase.ready n, cancelled := false }
            else cancelTask c.task o k) = none
      rw [if_neg (by omega), cancelTask_none_iff]
      exact hfresh k (by omega)
    · intro o' ho'
      have ho2 : some c.nextId = some o' := ho'
      cases ho2
      show (if c.nextId = c.nextId
            then some { phase := TPhase.ready n, cancelled := false }
            else cancelTask c.task o c.nextId) ≠ none
      rw [if_pos rfl]
      exact Option.some_ne_none _
  | startFresh n hs =>
    constructor
    · intro k hk
      have hk' : c.nextId + 1 ≤ k := hk
      show (if k = c.nextId
            then some { phase := TPhase.ready n, cancelled := false }
            else c.task k) = none
      rw [if_neg (by omega)]
      exact hfresh k (by omega)
    · intro o' ho'
      have ho2 : some c.nextId = some o' := ho'
      cases ho2
      show (if c.nextId = c.nextId
            then some { phase := TPhase.ready n, cancelled := false }
            else c.task c.nextId) ≠ none
      rw [if_pos rfl]
      exact Option.some_ne_none _
  | stopSome o hs =>
    refine ⟨fun k hk => ?_, fun o' ho' => Option.noConfusion ho'⟩
    show cancelTask c.task o k = none
    rw [cancelTask_none_iff]
    exact hfresh k hk
  | stopNone hs => exact ⟨hfresh, hslot⟩
  | cancelledBeforeRun i n ht =>
    refine ⟨fun k hk => ?_, fun o' ho' => ?_⟩
    · show setPhase c.task i TPhase.finished k = none
      rw [setPhase_none_iff]
      exact hfresh k hk
    · have ho2 : c.slot = some o' := ho'
      show setPhase c.task i TPhase.finished o' ≠ none
      intro hc
      rw [setPhase_none_iff] at hc
      exact hslot o' ho2 hc
  | firstRunCursorFail i n ht =>
    refine ⟨fun k hk => ?_, fun o' ho' => Option.noConfusion ho'⟩
    show setPhase c.task i TPhase.finished k = none
    rw [setPhase_none_iff]
    exact hfresh k hk
  | firstRunKeyGone i n ht hs =>
    refine ⟨fun k hk => ?_, fun o' ho' => ?_⟩
    · show setPhase c.task i TPhase.finished k = none
      rw [setPhase_none_iff]
      exact hfresh k hk
    · have ho2 : c.slot = some o' := ho'
      rw [hs] at ho2
      cases ho2
  | firstRunEmptyText i j ht hs =>
    refine ⟨fun k hk => ?_, fun o' ho' => Option.noConfusion ho'⟩
    show setPhase c.task i TPhase.finished k = none
    rw [setPhase_none_iff]
    exact hfresh k hk
  | firstRunWord i n j ht hs =>
    refine ⟨fun k hk => ?_, fun o' ho' => ?_⟩
    · show setPhase c.task i (TPhase.sleeping n) k = none
      rw [setPhase_none_iff]
      exact hfresh k hk
    · have ho2 : c.slot = some o' := ho'
      show setPhase c.task i (TPhase.sleeping n) o' ≠ none
      intro hc
      rw [setPhase_none_iff] at hc
      exact hslot o' ho2 hc
  | resumeCancelled i k ht =>
    refine ⟨fun k' hk' => ?_, fun o' ho' => Option.noConfusion ho'⟩
    show setPhase c.task i TPhase.finished k' = none
    rw [setPhase_none_iff]
    exact hfresh k' hk'
  | resumeKeyGone i k ht hs =>
    refine ⟨fun k' hk' => ?_, fun o' ho' => ?_⟩
    · show setPhase c.task i TPhase.finished k' = none
      rw [setPhase_none_iff]
      exact hfresh k' hk'
    · have ho2 : c.slot = some o' := ho'
      rw [hs] at ho2
      cases ho2
  | resumeFinal i j ht hs =>
    refine ⟨fun k' hk' => ?_, fun o' ho' => Option.noConfusion ho'⟩
    show setPhase c.task i TPhase.finished k' = none
    rw [setPhase_none_iff]
    exact hfresh k' hk'
  | resumeWord i k j ht hs =>
    refine ⟨fun k' hk' => ?_, fun o' ho' => ?_⟩
    · show setPhase c.task i (TPhase.sleeping k) k' = none
      rw [setPhase_none_iff]
      exact hfresh k' hk'
    · have ho2 : c.slot = some o' := ho'
      show setPhase c.task i (TPhase.sleeping k) o' ≠ none
      intro hc
      rw [setPhase_none_iff] at hc
      exact hslot o' ho2 hc

/-- Every reachable typing configuration satisfies the invariant. -/
theorem typingInv_reachable {c : TypingConfig} (h : TypingReachable c) :
    TypingInv c := by
  induction h with
  | init =>
    exact ⟨fun k _ => rfl, fun o ho => by cases ho⟩
  | step _ hs ih => exact typingInv_step ih hs

/-- C8: in every reachable configuration of the typing simulator, (a)
starting a new session for a recipient whose key holds a live session
cancels that session as its first action; (b) the session map holds at
most one session per recipient key; (c) a cancelled session can never
perform its final full-text (`Finalized`) edit; (d) cancellation is
permanent, so a cancelled session never finalizes at any later point
either. -/
theorem C8_typing_sessions (c : TypingConfig) (h : TypingReachable c) :
    (∀ old n c', c.slot = some old →
      TypingStep c (TLabel.startSession n c.nextId) c' →
      ∃ r, c'.task old = some r ∧ r.cancelled = true) ∧
    (∀ i j, c.slot = some i → c.slot = some j → i = j) ∧
    (∀ i c', (∃ r, c.task i = some r ∧ r.cancelled = true) →
      ¬ TypingStep c (TLabel.finalEdit i) c') ∧
    (∀ i l c', (∃ r, c.task i = some r ∧ r.cancelled = true) →
      TypingStep c l c' → ∃ r, c'.task i = some r ∧ r.cancelled = true) := by
  obtain ⟨hfresh, hslot⟩ := typingInv_reachable h
  refine ⟨?_, ?_, ?_, ?_⟩
  · intro old n c' hso hstep
    generalize hl : TLabel.startSession n c.nextId = lab at hstep
    cases hstep with
    | startOver n2 o hs =>
      injection hl with hn hid
      subst hn
      rw [hso] at hs
      cases hs
      have hne : c.task old ≠ none := hslot old hso
      have hlt : old < c.nextId := by
        by_contra hge
        exact hne (hfresh old (by omega))
      rcases hr : c.task old with _ | r0
      · exact absurd hr hne
      · refine ⟨{ r0 with cancelled := true }, ?_, rfl⟩
        show (if old = c.nextId
              then some { phase := TPhase.ready n, cancelled := false }
              else cancelTask c.task old old) =
            some { r0 with cancelled := true }
        rw [if_neg (by omega)]
        unfold cancelTask
        rw [if_pos rfl, hr]
        rfl
    | startFresh n2 hs =>
      rw [hso] at hs
      cases hs
    | stopSome o hs => cases hl
    | stopNone hs => cases hl
    | cancelledBeforeRun i' n' ht => cases hl
    | firstRunCursorFail i' n' ht => cases hl
    | firstRunKeyGone i' n' ht hs => cases hl
    | firstRunEmptyText i' j ht hs => cases hl
    | firstRunWord i' n' j ht hs => cases hl
    | resumeCancelled i' k ht => cases hl
    | resumeKeyGone i' k ht hs => cases hl
    | resumeFinal i' j ht hs => cases hl
    | resumeWord i' k j ht hs => cases hl
  · intro i j hi hj
    rw [hi] at hj
    cases hj
    rfl
  · intro i c' hex hstep
    obtain ⟨r, hr, hrc⟩ := hex
    generalize hl : TLabel.finalEdit i = lab at hstep
    cases hstep with
    | startOver n o hs => cases hl
    | startFresh n hs => cases hl
    | stopSome o hs => cases hl
    | stopNone hs => cases hl
    | cancelledBeforeRun i' n ht => cases hl
    | firstRunCursorFail i' n ht => cases hl
    | firstRunKeyGone i' n ht hs => cases hl
    | firstRunEmptyText i' j' ht hs =>
      injection hl with hi'
      subst hi'
      rw [ht] at hr
      cases hr
      exact Bool.noConfusion hrc
    | firstRunWord i' n j' ht hs => cases hl
    | resumeCancelled i' k ht => cases hl
    | resumeKeyGone i' k ht hs => cases hl
    | resumeFinal i' j' ht hs =>
      injection hl with hi'
      subst hi'
      rw [ht] at hr
      cases hr
      exact Bool.noConfusion hrc
    | resumeWord i' k j' ht hs => cases hl
  · intro i l c' hex hstep
    obtain ⟨r, hr, hrc⟩ := hex
    have hlt : i < c.nextId := by
      by_contra hge
      rw [hfresh i (by omega)] at hr
      cases hr
    cases hstep with
    | startOver n o hs =>
      show ∃ r', (if i = c.nextId
            then some { phase := TPhase.ready n, cancelled := false }
            else cancelTask c.task o i) = some r' ∧ r'.cancelled = true
      rw [if_neg (by omega)]
      exact cancelTask_pres_cancelled hr hrc
    | startFresh n hs =>
      show ∃ r', (if i = c.nextId
            then some { phase := TPhase.ready n, cancelled := false }
            else c.task i) = some r' ∧ r'.cancelled = true
      rw [if_neg (by omega)]
      exact ⟨r, hr, hrc⟩
    | stopSome o hs => exact cancelTask_pres_cancelled hr hrc
    | stopNone hs => exact ⟨r, hr, hrc⟩
    | cancelledBeforeRun i' n ht => exact setPhase_pres_cancelled hr hrc
    | firstRunCursorFail i' n ht => exact setPhase_pres_cancelled hr hrc
    | firstRunKeyGone i' n ht hs => exact setPhase_pres_cancelled hr hrc
    | firstRunEmptyText i' j ht hs => exact setPhase_pres_cancelled hr hrc
    | firstRunWord i' n j ht hs => exact setPhase_pres_cancelled hr hrc
    | resumeCancelled i' k ht => exact setPhase_pres_cancelled hr hrc
    | resumeKeyGone i' k ht hs => exact setPhase_pres_cancelled hr hrc
    | resumeFinal i' j ht hs => exact setPhase_pres_cancelled hr hrc
    | resumeWord i' k j ht hs => exact setPhase_pres_cancelled hr hrc

/-- Witness for C8 at the concrete reachable configuration with one live
session stored for the recipient. -/
theorem C8_typing_sessions_witness :
    (∀ old n c', typingC1.slot = some old →
      TypingStep typingC1 (TLabel.startSession n typingC1.nextId) c' →
      ∃ r, c'.task old = some r ∧ r.cancelled = true) ∧
    (∀ i j, typingC1.slot = some i → typingC1.slot = some j → i = j) ∧
    (∀ i c', (∃ r, typingC1.task i = some r ∧ r.cancelled = true) →
      ¬ TypingStep typingC1 (TLabel.finalEdit i) c') ∧
    (∀ i l c', (∃ r, typingC1.task i = some r ∧ r.cancelled = true) →
      TypingStep typingC1 l c' →
      ∃ r, c'.task i = some r ∧ r.cancelled = true) :=
  C8_typing_sessions typingC1
    (TypingReachable.step TypingReachable.init
      (TypingStep.startFresh typingInit 2 rfl))

/-- Witness for C10: a message from the bot's own nickname is dropped with
no state change and no effect. -/
theorem C10_guard_frame_witness :
    (sampleSelfMsg.mucnick = "AI-бот" ∨
      ¬ (sampleSelfMsg.mtype = "chat" ∨ sampleSelfMsg.mtype = "normal" ∨
         sampleSelfMsg.mtype = "groupchat")) ∧
    muc_message "AI-бот" false true 30 sampleState sampleSelfMsg sampleEnv =
      (sampleState, []) :=
  ⟨Or.inl rfl,
   C10_guard_frame "AI-бот" false true 30 sampleState sampleSelfMsg sampleEnv
     (Or.inl rfl)⟩

end XmppBot
